import Mathlib

/-
Verification development for the RustDDS core.

This file gives a shallow embedding of the parts of the source that the
verified properties are about:

  * src/structure/inline_qos.rs   (StatusInfo, KeyHash, their CDR wire forms)
  * src/dds/ddsdata.rs            (DDSData construction)
  * src/dds/participant.rs        (participant construction, weak handles,
                                   participant-id selection)
  * src/dds/with_key/datareader.rs (DataReader read/take/read_instance/
                                   take_instance and the cache-delivery path)

Machine integers are modelled as Nat (a byte is a Nat below 256, u128 a Nat
below 2 ^ 128); fallible code returns Except; side effects (clocks, heap
allocation, socket binding) are passed in explicitly.  Types and operations
whose definitions live in repository files not present under src/ (e.g.
DataSampleCache, the CDR serializer, the port constants) are modelled from
the spec and marked as such in their doc comments.
-/

/-- GuidPrefix models the 12-octet participant identity from
structure/guid.rs (not under src/; only its use sites are).  Only its
identity (equality) matters to the verified properties, so it is abstracted
to a single Nat. -/
structure GuidPrefix where
  val : Nat
deriving DecidableEq

/-- EntityId is a 4-octet per-endpoint id; abstracted to Nat. -/
abbrev EntityId := Nat

/-- ENTITYID_UNKNOWN, the reserved unknown entity id. -/
def ENTITYID_UNKNOWN : EntityId := 0

/-- GUID as in structure/guid.rs: a GuidPrefix plus an EntityId.  Field
names follow the source (`guidPrefix`, `entityId`). -/
structure GUID where
  guidPrefix : GuidPrefix
  entityId : EntityId
deriving DecidableEq

/-- Timestamps are abstract instants; only passed around, never computed
with. -/
abbrev Timestamp := Nat

/-- ChangeKind from structure/cache_change.rs (declared outside src/, but
its three variants are fixed by their use sites in src/ and the spec). -/
inductive ChangeKind where
  | ALIVE
  | NOT_ALIVE_DISPOSED
  | NOT_ALIVE_UNREGISTERED
deriving DecidableEq

/-- RepresentationIdentifier: the wire-form representation identifiers
matched by `KeyHash::from_cdr_bytes` in src/structure/inline_qos.rs.  OTHER
stands for every identifier that is none of the four CDR ones. -/
inductive RepresentationIdentifier where
  | CDR_BE
  | CDR_LE
  | PL_CDR_BE
  | PL_CDR_LE
  | OTHER
deriving DecidableEq

/-- The serialization error type (crate::serialization::error::Error);
only the fact that an error occurred matters here. -/
inductive SerError where
  | IOError
deriving DecidableEq

/-- StatusInfoEnum from src/structure/inline_qos.rs: the three flag bits of
a StatusInfo (Disposed = 0b001, Unregistered = 0b010, Filtered = 0b100). -/
inductive StatusInfoEnum where
  | Disposed
  | Unregistered
  | Filtered
deriving DecidableEq

/-- StatusInfo from src/structure/inline_qos.rs: three reserved octets `em`
(modelled as Nats below 256) and the flag set `si`, modelled by one Bool
per StatusInfoEnum member. -/
structure StatusInfo where
  em0 : Nat
  em1 : Nat
  em2 : Nat
  disposed : Bool
  unregistered : Bool
  filtered : Bool
deriving DecidableEq

/-- StatusInfo::empty. -/
def StatusInfo.empty : StatusInfo := ⟨0, 0, 0, false, false, false⟩

/-- StatusInfo::contains: membership test on the flag set. -/
def StatusInfo.contains (s : StatusInfo) : StatusInfoEnum → Bool
  | StatusInfoEnum.Disposed => s.disposed
  | StatusInfoEnum.Unregistered => s.unregistered
  | StatusInfoEnum.Filtered => s.filtered

/-- StatusInfo::change_kind from src/structure/inline_qos.rs lines 42-53:
Disposed is strongest, then Unregistered; Filtered alone is still alive. -/
def StatusInfo.change_kind (s : StatusInfo) : ChangeKind :=
  if s.contains StatusInfoEnum.Disposed then ChangeKind.NOT_ALIVE_DISPOSED
  else if s.contains StatusInfoEnum.Unregistered then ChangeKind.NOT_ALIVE_UNREGISTERED
  else ChangeKind.ALIVE

/-- The low flag byte of a StatusInfo, as written on the wire:
Disposed = 1, Unregistered = 2, Filtered = 4. -/
def StatusInfo.si_bits (s : StatusInfo) : Nat :=
  (cond s.disposed 1 0) + (cond s.unregistered 2 0) + (cond s.filtered 4 0)

/-- Modelled from the spec: `to_bytes::<StatusInfo, BO>` of the CDR
serializer (serialization/cdr_serializer.rs, not under src/).  A StatusInfo
is four octets `[em0, em1, em2, flags]` regardless of byte order, since all
fields are single octets; the unit test in src/structure/inline_qos.rs pins
exactly these bytes for both endiannesses. -/
def StatusInfo.into_cdr_bytes (s : StatusInfo) : List Nat :=
  [s.em0, s.em1, s.em2, s.si_bits]

/-- StatusInfo::from_cdr_bytes (src/structure/inline_qos.rs lines 61-66),
with the CDR deserializer adapter modelled from the spec: read three octets
`em`, then one flag octet, which must carry only the three known bits
(BitFlags deserialization rejects unknown bits); representation identifiers
other than the four CDR ones are rejected. -/
def StatusInfo.from_cdr_bytes (bytes : List Nat) (rep : RepresentationIdentifier) :
    Except SerError StatusInfo :=
  match rep with
  | RepresentationIdentifier.OTHER => Except.error SerError.IOError
  | _ =>
    match bytes with
    | a :: b :: c :: d :: _ =>
      if d < 8 then
        Except.ok ⟨a, b, c, decide (d % 2 = 1), decide (d / 2 % 2 = 1), decide (d / 4 % 2 = 1)⟩
      else Except.error SerError.IOError
    | _ => Except.error SerError.IOError

/-- KeyHash from src/structure/inline_qos.rs: a u128 instance-key digest,
modelled as a Nat (a real value is below 2 ^ 128). -/
structure KeyHash where
  key : Nat
deriving DecidableEq

/-- KeyHash::empty. -/
def KeyHash.empty : KeyHash := ⟨0⟩

/-- KeyHash::value. -/
def KeyHash.value (h : KeyHash) : Nat := h.key

/-- Big-endian byte decomposition: `natToBytesBE n k` is the `n`-octet
big-endian encoding of `k` (most significant octet first). -/
def natToBytesBE : Nat → Nat → List Nat
  | 0, _ => []
  | n + 1, k => natToBytesBE n (k / 256) ++ [k % 256]

/-- Little-endian byte decomposition: least significant octet first. -/
def natToBytesLE : Nat → Nat → List Nat
  | 0, _ => []
  | n + 1, k => k % 256 :: natToBytesLE n (k / 256)

/-- Big-endian recomposition of a byte list (first octet most
significant), as `read_u128::<BigEndian>` does. -/
def bytesToNatBE (bs : List Nat) : Nat :=
  bs.foldl (fun a b => a * 256 + b) 0

/-- Little-endian recomposition (first octet least significant), as
`read_u128::<LittleEndian>` does. -/
def bytesToNatLE (bs : List Nat) : Nat :=
  bs.foldr (fun b a => a * 256 + b) 0

/-- Modelled from the spec: `to_bytes::<KeyHash, BO>` with big-endian byte
order (the CDR serializer is not under src/): the sixteen octets of the
u128 key, most significant first; the unit test in
src/structure/inline_qos.rs pins these bytes. -/
def KeyHash.into_cdr_bytes_be (h : KeyHash) : List Nat :=
  natToBytesBE 16 h.key

/-- Modelled from the spec: `to_bytes::<KeyHash, LittleEndian>`: the
sixteen octets of the u128 key, least significant first. -/
def KeyHash.into_cdr_bytes_le (h : KeyHash) : List Nat :=
  natToBytesLE 16 h.key

/-- KeyHash::from_cdr_bytes (src/structure/inline_qos.rs lines 90-105):
read a u128 from the front of the byte list, big- or little-endian
according to the representation identifier; any other identifier yields
key 0 (the source's `_ => 0` arm); fewer than 16 octets is an IO error. -/
def KeyHash.from_cdr_bytes (bytes : List Nat) (rep : RepresentationIdentifier) :
    Except SerError KeyHash :=
  match rep with
  | RepresentationIdentifier.CDR_BE | RepresentationIdentifier.PL_CDR_BE =>
    if 16 ≤ bytes.length then Except.ok ⟨bytesToNatBE (bytes.take 16)⟩
    else Except.error SerError.IOError
  | RepresentationIdentifier.CDR_LE | RepresentationIdentifier.PL_CDR_LE =>
    if 16 ≤ bytes.length then Except.ok ⟨bytesToNatLE (bytes.take 16)⟩
    else Except.error SerError.IOError
  | RepresentationIdentifier.OTHER => Except.ok ⟨0⟩

/-- SerializedPayload from the submessage elements (declared outside src/,
shape fixed by its use sites in src/): a representation identifier (u16,
as Nat) and the payload octets. -/
structure SerializedPayload where
  representation_identifier : Nat
  value : List Nat
deriving DecidableEq

/-- DDSData from src/dds/ddsdata.rs: a serialized sample with metadata. -/
structure DDSData where
  source_timestamp : Timestamp
  change_kind : ChangeKind
  reader_id : EntityId
  writer_id : EntityId
  value : Option SerializedPayload
  value_key_hash : Nat
deriving DecidableEq

/-- DDSData::new_disposed (src/dds/ddsdata.rs lines 43-63).  The source
calls Timestamp::now(); the clock is passed in as `now`. -/
def DDSData.new_disposed (now : Timestamp) (status_info : Option StatusInfo)
    (key_hash : Option KeyHash) : DDSData :=
  let change_kind :=
    match status_info with
    | some i => i.change_kind
    | none => ChangeKind.ALIVE
  let value_key_hash :=
    match key_hash with
    | some v => v
    | none => KeyHash.empty
  { source_timestamp := now
    change_kind := change_kind
    reader_id := ENTITYID_UNKNOWN
    writer_id := ENTITYID_UNKNOWN
    value := none
    value_key_hash := value_key_hash.value }

/-- DDSData::from_dispose (src/dds/ddsdata.rs lines 89-109).  The source
ignores its key argument (`_key`), leaves `value` at None (its `TODO:
Serialize key`) and `value_key_hash` at 0.  `K` stands for the key type
`<D as Keyed>::K`. -/
def DDSData.from_dispose (K : Type) (_key : K) (now : Timestamp)
    (source_timestamp : Option Timestamp) : DDSData :=
  let ts :=
    match source_timestamp with
    | some t => t
    | none => now
  { source_timestamp := ts
    change_kind := ChangeKind.NOT_ALIVE_DISPOSED
    reader_id := ENTITYID_UNKNOWN
    writer_id := ENTITYID_UNKNOWN
    value := none
    value_key_hash := 0 }

/-- A reference to one shared DDSCache allocation
(`Arc<RwLock<DDSCache>>`): two references are the same cache exactly when
their allocation ids are equal. -/
structure CacheRef where
  id : Nat
deriving DecidableEq

/-- The heap of cache allocations: contents of each cache by allocation
id.  Entries are abstract (Nat). -/
def CacheHeap : Type := Nat → List Nat

/-- Inserting an entry through a cache reference mutates exactly the
referenced allocation. -/
def cacheInsert (h : CacheHeap) (r : CacheRef) (e : Nat) : CacheHeap :=
  fun i => if i = r.id then e :: h i else h i

/-- Reading a cache through a reference. -/
def cacheRead (h : CacheHeap) (r : CacheRef) : List Nat :=
  h r.id

/-- The cache handles produced by `DomainParticipant_Inner::new`
(src/dds/participant.rs lines 473-622): `dds_cache` is the field stored in
the struct (line 619) and returned by `get_dds_cache`; `ev_loop_cache` is
the `a_r_cache` handle passed to `DPEventLoop::new` (lines 567 and 576). -/
structure DomainParticipant_Inner where
  dds_cache : CacheRef
  ev_loop_cache : CacheRef
deriving DecidableEq

/-- DomainParticipant_Inner::new, restricted to its cache allocations:
line 567 allocates `a_r_cache = Arc::new(RwLock::new(DDSCache::new()))`
and passes a clone of it to `DPEventLoop::new` (line 576); line 619
allocates a second, fresh `Arc::new(RwLock::new(DDSCache::new()))` and
stores that one in the `dds_cache` field.  `next_alloc` is the next free
allocation id; the function returns the constructed participant and the
updated allocator. -/
def DomainParticipant_Inner.new (next_alloc : Nat) : DomainParticipant_Inner × Nat :=
  let a_r_cache : CacheRef := ⟨next_alloc⟩
  let fresh_cache : CacheRef := ⟨next_alloc + 1⟩
  ({ dds_cache := fresh_cache, ev_loop_cache := a_r_cache }, next_alloc + 2)

/-- DomainParticipant_Inner::get_dds_cache (src/dds/participant.rs lines
624-626): returns (a clone of) the `dds_cache` field. -/
def DomainParticipant_Inner.get_dds_cache (dp : DomainParticipant_Inner) : CacheRef :=
  dp.dds_cache

/-- The error kinds of dds/values/result.rs used by the participant and
datareader paths in src/ (the enum itself is declared outside src/; these
variants appear at its use sites). -/
inductive DDSError where
  | OutOfResources
  | LockPoisoned
  | PreconditionNotMet
  | Internal
deriving DecidableEq

/-- Publisher, reduced to the participant identity it is created with
(Publisher::new always succeeds in DomainParticipant_Inner::create_publisher,
src/dds/participant.rs lines 642-656). -/
structure Publisher where
  participant : GUID
deriving DecidableEq

/-- Subscriber, reduced to the participant identity it is created with. -/
structure Subscriber where
  participant : GUID
deriving DecidableEq

/-- Topic, reduced to the participant identity, name and type name it is
created with (names abstracted to Nat ids). -/
structure Topic where
  participant : GUID
  name : Nat
  type_desc : Nat
deriving DecidableEq

/-- DomainParticipant_Inner::create_publisher (src/dds/participant.rs lines
642-656): always Ok(Publisher::new ...). -/
def DomainParticipant_Inner.create_publisher (dp_guid : GUID) : Except DDSError Publisher :=
  Except.ok ⟨dp_guid⟩

/-- DomainParticipant_Inner::create_subscriber (lines 658-672): always
Ok(Subscriber::new ...). -/
def DomainParticipant_Inner.create_subscriber (dp_guid : GUID) : Except DDSError Subscriber :=
  Except.ok ⟨dp_guid⟩

/-- DomainParticipant_Inner::create_topic (lines 678-696): always
Ok(Topic::new ...). -/
def DomainParticipant_Inner.create_topic (dp_guid : GUID) (name type_desc : Nat) :
    Except DDSError Topic :=
  Except.ok ⟨dp_guid, name, type_desc⟩

/-- DomainParticipantWeak::create_publisher (src/dds/participant.rs lines
252-257).  `upgrade` is the result of `self.dpi.upgrade()`: the strong
participant (carrying its GUID) when the participant is still alive, none
when the weak pointer is dangling — in which case the source returns
`Err(Error::OutOfResources)`. -/
def DomainParticipantWeak.create_publisher (upgrade : Option GUID) :
    Except DDSError Publisher :=
  match upgrade with
  | some g => DomainParticipant_Inner.create_publisher g
  | none => Except.error DDSError.OutOfResources

/-- DomainParticipantWeak::create_subscriber (lines 259-264): dangling
weak pointer yields `Err(Error::OutOfResources)`. -/
def DomainParticipantWeak.create_subscriber (upgrade : Option GUID) :
    Except DDSError Subscriber :=
  match upgrade with
  | some g => DomainParticipant_Inner.create_subscriber g
  | none => Except.error DDSError.OutOfResources

/-- DomainParticipantWeak::create_topic (lines 266-277): dangling weak
pointer yields `Err(Error::LockPoisoned)`. -/
def DomainParticipantWeak.create_topic (upgrade : Option GUID) (name type_desc : Nat) :
    Except DDSError Topic :=
  match upgrade with
  | some g => DomainParticipant_Inner.create_topic g name type_desc
  | none => Except.error DDSError.LockPoisoned

/-- DataReader::new (src/dds/with_key/datareader.rs lines 103-140),
reduced to its participant check: `participant` is the result of
`subscriber.get_participant()`; when it is None the source returns
`Err(Error::PreconditionNotMet)`, otherwise it constructs the reader whose
GUID is `GUID::new_with_prefix_and_id(dp.get_guid_prefix(), my_id)` (the
returned value here). -/
def DataReader.new (participant : Option GUID) (my_id : EntityId) :
    Except DDSError GUID :=
  match participant with
  | none => Except.error DDSError.PreconditionNotMet
  | some dp => Except.ok ⟨dp.guidPrefix, my_id⟩

/-- Modelled from the spec: get_spdp_well_known_unicast_port from
network/constant.rs (not under src/); spec section 4.5 gives
`7400 + 250 * domain_id + 10 + 2 * participant_id`. -/
def get_spdp_well_known_unicast_port (domain_id participant_id : Nat) : Nat :=
  7400 + 250 * domain_id + 10 + 2 * participant_id

/-- Modelled from the spec: get_user_traffic_unicast_port from
network/constant.rs (not under src/); spec section 4.5 gives
`7400 + 250 * domain_id + 11 + 2 * participant_id`. -/
def get_user_traffic_unicast_port (domain_id participant_id : Nat) : Nat :=
  7400 + 250 * domain_id + 11 + 2 * participant_id

/-- The participant-id scan of DomainParticipant_Inner::new
(src/dds/participant.rs lines 500-513): starting from candidate `p`, try
to bind the SPDP well-known unicast port for the domain; on failure
increment the candidate and retry.  `bindable` is the contract of
`UDPListener::try_bind` (is this port bindable); `fuel` bounds the
unbounded source loop, `none` meaning the scan did not finish within
`fuel` attempts.  Note the loop probes only the SPDP unicast port; the
user-traffic unicast port (line 542) is opened only after the id is
chosen. -/
def findParticipantId (bindable : Nat → Bool) (domain_id : Nat) :
    Nat → Nat → Option Nat
  | 0, _ => none
  | fuel + 1, p =>
    if bindable (get_spdp_well_known_unicast_port domain_id p) then some p
    else findParticipantId bindable domain_id fuel (p + 1)

/-- SampleState of dds/sampleinfo.rs (outside src/): NotRead until a read
marks the sample Read. -/
inductive SampleState where
  | NotRead
  | Read
deriving DecidableEq

/-- ViewState of dds/sampleinfo.rs (outside src/). -/
inductive ViewState where
  | New
  | NotNew
deriving DecidableEq

/-- InstanceState of dds/sampleinfo.rs (outside src/); the three variants
are fixed by `change_kind_to_instance_state` in
src/dds/with_key/datareader.rs. -/
inductive InstanceState where
  | Alive
  | NotAlive_Disposed
  | NotAlive_NoWriters
deriving DecidableEq

/-- The three state fields of a SampleInfo that
`DataReader::matches_conditions` consults. -/
structure SampleInfo where
  sample_state : SampleState
  view_state : ViewState
  instance_state : InstanceState
deriving DecidableEq

/-- The value of a DataSample: Rust's `Result<D, D::K>` — deserialized
data for a live sample, just the key for a disposed one. -/
inductive SampleValue (D K : Type) where
  | data (d : D)
  | key (k : K)
deriving DecidableEq

/-- DataSample of dds/with_key/datasample.rs (outside src/): its shape is
fixed by the use sites in src/dds/with_key/datareader.rs — a SampleInfo
(read via sample_info / sample_info_mut), the writer GUID it was
constructed with, and the value. -/
structure DataSample (D K : Type) where
  sample_info : SampleInfo
  writer_guid : GUID
  value : SampleValue D K
deriving DecidableEq

/-- DataSample::new (constructor used at datareader.rs line 320): a fresh,
not-yet-read, alive sample carrying deserialized data. -/
def DataSample.new {D K : Type} (payload : D) (wg : GUID) : DataSample D K :=
  { sample_info := ⟨SampleState.NotRead, ViewState.New, InstanceState.Alive⟩
    writer_guid := wg
    value := SampleValue.data payload }

/-- DataSample::new_disposed (constructor used at datareader.rs line 275):
a fresh sample for a disposed instance, carrying only the key. -/
def DataSample.new_disposed {D K : Type} (k : K) (wg : GUID) : DataSample D K :=
  { sample_info := ⟨SampleState.NotRead, ViewState.New, InstanceState.NotAlive_Disposed⟩
    writer_guid := wg
    value := SampleValue.key k }

/-- ReadCondition of dds/readcondition.rs (outside src/): three state
masks, modelled as membership functions. -/
structure ReadCondition where
  sample_state_mask : SampleState → Bool
  view_state_mask : ViewState → Bool
  instance_state_mask : InstanceState → Bool

/-- Modelled from the spec: ReadCondition::any() matches every state. -/
def ReadCondition.any : ReadCondition :=
  ⟨fun _ => true, fun _ => true, fun _ => true⟩

/-- DataReader::matches_conditions (src/dds/with_key/datareader.rs lines
443-463): the sample passes iff each of its three states is in the
corresponding mask. -/
def matches_conditions {D K : Type} (rc : ReadCondition) (ds : DataSample D K) : Bool :=
  rc.sample_state_mask ds.sample_info.sample_state &&
    rc.view_state_mask ds.sample_info.view_state &&
    rc.instance_state_mask ds.sample_info.instance_state

/-- Marking a sample read: `datasample.sample_info_mut().sample_state =
SampleState::Read`. -/
def setRead {D K : Type} (ds : DataSample D K) : DataSample D K :=
  { ds with sample_info := { ds.sample_info with sample_state := SampleState.Read } }

/-- The inner loop of DataReader::read_as_obj (datareader.rs lines
167-180) over one instance's sample vector: for each sample, if it matches
the condition it is marked Read (in place) and a copy is pushed onto the
result; after every sample, if the result has reached `max_samples` the
outer loop is broken.  Returns (result so far, the mutated vector, whether
the outer break fired). -/
def readVec {D K : Type} (rc : ReadCondition) (max_samples : Nat) :
    List (DataSample D K) → List (DataSample D K) →
      List (DataSample D K) × List (DataSample D K) × Bool
  | acc, [] => (acc, [], false)
  | acc, ds :: rest =>
    if matches_conditions rc ds then
      let acc2 := acc ++ [setRead ds]
      if max_samples ≤ acc2.length then (acc2, setRead ds :: rest, true)
      else
        let r := readVec rc max_samples acc2 rest
        (r.1, setRead ds :: r.2.1, r.2.2)
    else
      if max_samples ≤ acc.length then (acc, ds :: rest, true)
      else
        let r := readVec rc max_samples acc rest
        (r.1, ds :: r.2.1, r.2.2)

/-- The outer loop of DataReader::read_as_obj over the instances of the
datasample cache, chaining `readVec` and honouring its break flag. -/
def readOuter {D K : Type} (rc : ReadCondition) (max_samples : Nat) :
    List (DataSample D K) → List (K × List (DataSample D K)) →
      List (DataSample D K) × List (K × List (DataSample D K)) × Bool
  | acc, [] => (acc, [], false)
  | acc, e :: rest =>
    let rv := readVec rc max_samples acc e.2
    if rv.2.2 then (rv.1, (e.1, rv.2.1) :: rest, true)
    else
      let ro := readOuter rc max_samples rv.1 rest
      (ro.1, (e.1, rv.2.1) :: ro.2.1, ro.2.2)

/-- The inner loop of DataReader::take_as_obj (datareader.rs lines
198-216): a matching sample is removed from the vector, marked Read and
pushed onto the result; a non-matching one is kept; after every step, if
the result has reached `max_samples` the outer loop is broken. -/
def takeVec {D K : Type} (rc : ReadCondition) (max_samples : Nat) :
    List (DataSample D K) → List (DataSample D K) →
      List (DataSample D K) × List (DataSample D K) × Bool
  | acc, [] => (acc, [], false)
  | acc, ds :: rest =>
    if matches_conditions rc ds then
      let acc2 := acc ++ [setRead ds]
      if max_samples ≤ acc2.length then (acc2, rest, true)
      else
        let r := takeVec rc max_samples acc2 rest
        (r.1, r.2.1, r.2.2)
    else
      if max_samples ≤ acc.length then (acc, ds :: rest, true)
      else
        let r := takeVec rc max_samples acc rest
        (r.1, ds :: r.2.1, r.2.2)

/-- The outer loop of DataReader::take_as_obj over the instances of the
datasample cache. -/
def takeOuter {D K : Type} (rc : ReadCondition) (max_samples : Nat) :
    List (DataSample D K) → List (K × List (DataSample D K)) →
      List (DataSample D K) × List (K × List (DataSample D K)) × Bool
  | acc, [] => (acc, [], false)
  | acc, e :: rest =>
    let tv := takeVec rc max_samples acc e.2
    if tv.2.2 then (tv.1, (e.1, tv.2.1) :: rest, true)
    else
      let to2 := takeOuter rc max_samples tv.1 rest
      (to2.1, (e.1, tv.2.1) :: to2.2.1, to2.2.2)

/-- CacheChange from structure/cache_change.rs (outside src/); the fields
read by src/dds/with_key/datareader.rs: kind, writer_guid, sequence
number, instance key hash (`cc.key`), and the optional serialized
payload. -/
structure CacheChange where
  kind : ChangeKind
  writer_guid : GUID
  sequence_number : Int
  key : Nat
  data_value : Option SerializedPayload
deriving DecidableEq

/-- DataSampleCache of dds/datasample_cache.rs (outside src/): its
`datasamples` BTreeMap from instance key to sample vector, modelled as an
association list in iteration order. -/
structure DataSampleCache (D K : Type) where
  datasamples : List (K × List (DataSample D K))
deriving DecidableEq

/-- The instance key of a sample: the data's key for a live sample, the
carried key for a disposed one. -/
def sampleKey {D K : Type} (keyOf : D → K) (ds : DataSample D K) : K :=
  match ds.value with
  | SampleValue.data d => keyOf d
  | SampleValue.key k => k

/-- Modelled from the spec: DataSampleCache::add_datasample appends the
sample to its instance's vector, creating the instance if absent. -/
def addToInstance {D K : Type} [DecidableEq K] (k : K) (ds : DataSample D K) :
    List (K × List (DataSample D K)) → List (K × List (DataSample D K))
  | [] => [(k, [ds])]
  | e :: rest =>
    if e.1 = k then (e.1, e.2 ++ [ds]) :: rest
    else e :: addToInstance k ds rest

/-- Modelled from the spec: DataSampleCache::add_datasample (see
`addToInstance`). -/
def DataSampleCache.add_datasample {D K : Type} [DecidableEq K] (keyOf : D → K)
    (c : DataSampleCache D K) (ds : DataSample D K) : DataSampleCache D K :=
  ⟨addToInstance (sampleKey keyOf ds) ds c.datasamples⟩

/-- DataReader::change_kind_to_instance_state (datareader.rs lines
465-472). -/
def change_kind_to_instance_state : ChangeKind → InstanceState
  | ChangeKind.ALIVE => InstanceState.Alive
  | ChangeKind.NOT_ALIVE_DISPOSED => InstanceState.NotAlive_Disposed
  | ChangeKind.NOT_ALIVE_UNREGISTERED => InstanceState.NotAlive_NoWriters

/-- One iteration of the delivery loop of
DataReader::get_datasamples_from_cache (datareader.rs lines 265-324) for a
cache change that passed the writer-prefix filter.  `deser` abstracts the
representation-identifier parse plus `DA::from_bytes` (both failures
`continue`); `hashToKey` abstracts `datasample_cache.get_key` (the
key-hash index, whose miss is a logged skip).  A payload-less DISPOSED
change with a known key becomes a disposed sample; a payload-carrying
change that deserializes becomes a live sample whose instance state is
derived from the change kind. -/
def processChange {D K : Type} [DecidableEq K] (deser : SerializedPayload → Option D)
    (keyOf : D → K) (hashToKey : Nat → Option K)
    (c : DataSampleCache D K) (cc : CacheChange) : DataSampleCache D K :=
  match cc.data_value with
  | none =>
    match cc.kind with
    | ChangeKind.NOT_ALIVE_DISPOSED =>
      match hashToKey cc.key with
      | some k => c.add_datasample keyOf (DataSample.new_disposed k cc.writer_guid)
      | none => c
    | _ => c
  | some sp =>
    match deser sp with
    | some payload =>
      let ds0 : DataSample D K := DataSample.new payload cc.writer_guid
      let ds := { ds0 with
        sample_info := { ds0.sample_info with
          instance_state := change_kind_to_instance_state cc.kind } }
      c.add_datasample keyOf ds
    | none => c

/-- Insertion step of the stable sort by receive instant
(`sorted_by(|(a, _), (b, _)| Ord::cmp(a, b))` at datareader.rs line 255). -/
def insertByInstant (x : Nat × CacheChange) :
    List (Nat × CacheChange) → List (Nat × CacheChange)
  | [] => [x]
  | y :: ys => if x.1 ≤ y.1 then x :: y :: ys else y :: insertByInstant x ys

/-- Sort the fetched cache changes by receive instant. -/
def sortByInstant : List (Nat × CacheChange) → List (Nat × CacheChange)
  | [] => []
  | x :: xs => insertByInstant x (sortByInstant xs)

/-- DataReader::get_datasamples_from_cache (datareader.rs lines 237-325).
`changes` is the list returned by
`dds_cache.from_topic_get_changes_in_range` for this reader's topic and
instant window (the DDSCache itself and the latest_instant bookkeeping are
abstracted into this input).  Changes are sorted by instant, changes whose
writer GUID prefix equals the reader's own prefix `pfx` are filtered out,
and — unless nothing is left — each remaining change is delivered into the
datasample cache by `processChange`. -/
def get_datasamples_from_cache {D K : Type} [DecidableEq K] (pfx : GuidPrefix)
    (deser : SerializedPayload → Option D) (keyOf : D → K) (hashToKey : Nat → Option K)
    (c : DataSampleCache D K) (changes : List (Nat × CacheChange)) :
    DataSampleCache D K :=
  let sorted := sortByInstant changes
  let filtered := sorted.filter (fun ic => decide (ic.2.writer_guid.guidPrefix ≠ pfx))
  match filtered.getLast? with
  | none => c
  | some _ => filtered.foldl (fun acc ic => processChange deser keyOf hashToKey acc ic.2) c

/-- DataReader::read_as_obj (datareader.rs lines 158-186): pull unseen
changes from the DDSCache into the datasample cache, then collect (and
mark Read) up to `max_samples` matching samples without removing them.
Returns the result vector and the updated datasample cache. -/
def read_as_obj {D K : Type} [DecidableEq K] (pfx : GuidPrefix)
    (deser : SerializedPayload → Option D) (keyOf : D → K) (hashToKey : Nat → Option K)
    (c : DataSampleCache D K) (changes : List (Nat × CacheChange))
    (max_samples : Nat) (rc : ReadCondition) :
    List (DataSample D K) × DataSampleCache D K :=
  let c2 := get_datasamples_from_cache pfx deser keyOf hashToKey c changes
  let ro := readOuter rc max_samples [] c2.datasamples
  (ro.1, ⟨ro.2.1⟩)

/-- DataReader::take_as_obj (datareader.rs lines 189-222): like
read_as_obj but matching samples are removed from the cache. -/
def take_as_obj {D K : Type} [DecidableEq K] (pfx : GuidPrefix)
    (deser : SerializedPayload → Option D) (keyOf : D → K) (hashToKey : Nat → Option K)
    (c : DataSampleCache D K) (changes : List (Nat × CacheChange))
    (max_samples : Nat) (rc : ReadCondition) :
    List (DataSample D K) × DataSampleCache D K :=
  let c2 := get_datasamples_from_cache pfx deser keyOf hashToKey c changes
  let to2 := takeOuter rc max_samples [] c2.datasamples
  (to2.1, ⟨to2.2.1⟩)

/-- SelectByKey from src/dds/with_key/datareader.rs lines 40-44. -/
inductive SelectByKey where
  | This
  | Next
deriving DecidableEq

/-- The minimum of a key list: `datasamples.keys().min()` of the BTreeMap,
on the association-list model. -/
def keysMin {K : Type} [LinearOrder K] : List K → Option K
  | [] => none
  | k :: ks =>
    match keysMin ks with
    | none => some k
    | some m => some (min k m)

/-- Modelled from the spec: DataSampleCache::get_next_key — the smallest
instance key strictly greater than `k`, in the Ord order on keys. -/
def get_next_key {D K : Type} [LinearOrder K] (c : DataSampleCache D K) (k : K) :
    Option K :=
  keysMin ((c.datasamples.map Prod.fst).filter (fun k2 => decide (k < k2)))

/-- Lookup of one instance's sample vector
(`datasample_cache.get_datasamples_mut(&key)` /
`datasamples.get_mut(&key)`). -/
def lookupInstance {D K : Type} [DecidableEq K] (c : DataSampleCache D K) (k : K) :
    Option (List (DataSample D K)) :=
  (c.datasamples.find? (fun e => decide (e.1 = k))).map Prod.snd

/-- Writing back one instance's mutated sample vector. -/
def setInstance {D K : Type} [DecidableEq K] (k : K) (vec : List (DataSample D K)) :
    List (K × List (DataSample D K)) → List (K × List (DataSample D K))
  | [] => []
  | e :: rest =>
    if e.1 = k then (e.1, vec) :: rest
    else e :: setInstance k vec rest

/-- The key-inference step shared by read_instance and take_instance
(datareader.rs lines 349-362 and 399-412): a given key is used as-is
(This) or replaced by the next key in order (Next, None if there is
none); an absent key selects the smallest instance. -/
def inferInstanceKey {D K : Type} [LinearOrder K] (c : DataSampleCache D K)
    (instance_key : Option K) (this_or_next : SelectByKey) : Option K :=
  match instance_key with
  | some k =>
    match this_or_next with
    | SelectByKey.This => some k
    | SelectByKey.Next => get_next_key c k
  | none => keysMin (c.datasamples.map Prod.fst)

/-- DataReader::read_instance (datareader.rs lines 335-380): deliver
pending changes, infer the instance key, and run the read inner loop on
just that instance's vector (the loop body and break are the same as
read_as_obj's inner loop). -/
def read_instance {D K : Type} [DecidableEq K] [LinearOrder K] (pfx : GuidPrefix)
    (deser : SerializedPayload → Option D) (keyOf : D → K) (hashToKey : Nat → Option K)
    (c : DataSampleCache D K) (changes : List (Nat × CacheChange))
    (max_samples : Nat) (rc : ReadCondition)
    (instance_key : Option K) (this_or_next : SelectByKey) :
    List (DataSample D K) × DataSampleCache D K :=
  let c2 := get_datasamples_from_cache pfx deser keyOf hashToKey c changes
  match inferInstanceKey c2 instance_key this_or_next with
  | none => ([], c2)
  | some k =>
    match lookupInstance c2 k with
    | none => ([], c2)
    | some vec =>
      let rv := readVec rc max_samples [] vec
      (rv.1, ⟨setInstance k rv.2.1 c2.datasamples⟩)

/-- DataReader::take_instance (datareader.rs lines 385-438): like
read_instance but with the removing take inner loop. -/
def take_instance {D K : Type} [DecidableEq K] [LinearOrder K] (pfx : GuidPrefix)
    (deser : SerializedPayload → Option D) (keyOf : D → K) (hashToKey : Nat → Option K)
    (c : DataSampleCache D K) (changes : List (Nat × CacheChange))
    (max_samples : Nat) (rc : ReadCondition)
    (instance_key : Option K) (this_or_next : SelectByKey) :
    List (DataSample D K) × DataSampleCache D K :=
  let c2 := get_datasamples_from_cache pfx deser keyOf hashToKey c changes
  match inferInstanceKey c2 instance_key this_or_next with
  | none => ([], c2)
  | some k =>
    match lookupInstance c2 k with
    | none => ([], c2)
    | some vec =>
      let tv := takeVec rc max_samples [] vec
      (tv.1, ⟨setInstance k tv.2.1 c2.datasamples⟩)

/-- Does a sample NOT originate from the participant with prefix `pfx`? -/
def dsNotFrom {D K : Type} (pfx : GuidPrefix) (ds : DataSample D K) : Bool :=
  decide (ds.writer_guid.guidPrefix ≠ pfx)

/-- Does no sample in the datasample cache originate from the participant
with prefix `pfx`? -/
def cacheNotFrom {D K : Type} (pfx : GuidPrefix) (c : DataSampleCache D K) : Bool :=
  c.datasamples.all (fun e => e.2.all (dsNotFrom pfx))

/-- The read-read-take-take experiment (spec testable property 7) on a
DataReader whose datasample cache holds samples `a` then `b` under one
instance key `k` and whose DDSCache window has no pending changes: run
read twice, then take twice, every call with the same max_samples `m` and
the any-condition, and collect the four result vectors. -/
def readReadTakeTake {D K : Type} [DecidableEq K] (pfx : GuidPrefix)
    (deser : SerializedPayload → Option D) (keyOf : D → K) (hashToKey : Nat → Option K)
    (a b : DataSample D K) (k : K) (m : Nat) :
    List (DataSample D K) × List (DataSample D K) × List (DataSample D K) ×
      List (DataSample D K) :=
  let r1 := read_as_obj pfx deser keyOf hashToKey ⟨[(k, [a, b])]⟩ [] m ReadCondition.any
  let r2 := read_as_obj pfx deser keyOf hashToKey r1.2 [] m ReadCondition.any
  let r3 := take_as_obj pfx deser keyOf hashToKey r2.2 [] m ReadCondition.any
  let r4 := take_as_obj pfx deser keyOf hashToKey r3.2 [] m ReadCondition.any
  (r1.1, r2.1, r3.1, r4.1)

/- ------------------------------------------------------------------ -/
/- Theorems.                                                           -/
/- ------------------------------------------------------------------ -/

theorem natToBytesBE_length (n : Nat) : ∀ k : Nat, (natToBytesBE n k).length = n := by
  induction n with
  | zero => intro k; simp [natToBytesBE]
  | succ n ih => intro k; simp [natToBytesBE, ih]

theorem natToBytesLE_length (n : Nat) : ∀ k : Nat, (natToBytesLE n k).length = n := by
  induction n with
  | zero => intro k; simp [natToBytesLE]
  | succ n ih => intro k; simp [natToBytesLE, ih]

theorem bytesToNatBE_append (bs : List Nat) (b : Nat) :
    bytesToNatBE (bs ++ [b]) = bytesToNatBE bs * 256 + b := by
  simp [bytesToNatBE, List.foldl_append]

theorem bytesToNatLE_cons (b : Nat) (bs : List Nat) :
    bytesToNatLE (b :: bs) = bytesToNatLE bs * 256 + b := rfl

theorem bytesToNatBE_natToBytesBE (n : Nat) :
    ∀ k : Nat, k < 256 ^ n → bytesToNatBE (natToBytesBE n k) = k := by
  induction n with
  | zero =>
    intro k h
    rw [pow_zero] at h
    simp [natToBytesBE, bytesToNatBE]
    omega
  | succ n ih =>
    intro k h
    rw [pow_succ] at h
    have h2 : k / 256 < 256 ^ n := by omega
    rw [natToBytesBE, bytesToNatBE_append, ih (k / 256) h2]
    omega

theorem bytesToNatLE_natToBytesLE (n : Nat) :
    ∀ k : Nat, k < 256 ^ n → bytesToNatLE (natToBytesLE n k) = k := by
  induction n with
  | zero =>
    intro k h
    rw [pow_zero] at h
    simp [natToBytesLE, bytesToNatLE]
    omega
  | succ n ih =>
    intro k h
    rw [pow_succ] at h
    have h2 : k / 256 < 256 ^ n := by omega
    rw [natToBytesLE, bytesToNatLE_cons, ih (k / 256) h2]
    omega

theorem keyHash_roundtrip_be (h : KeyHash) (hk : h.key < 256 ^ 16) :
    KeyHash.from_cdr_bytes (KeyHash.into_cdr_bytes_be h)
      RepresentationIdentifier.CDR_BE = Except.ok h := by
  obtain ⟨kv⟩ := h
  have hlen : (natToBytesBE 16 kv).length = 16 := natToBytesBE_length 16 kv
  have htake : (natToBytesBE 16 kv).take 16 = natToBytesBE 16 kv :=
    List.take_of_length_le (le_of_eq hlen)
  simp only [KeyHash.into_cdr_bytes_be, KeyHash.from_cdr_bytes]
  rw [if_pos (le_of_eq hlen.symm), htake, bytesToNatBE_natToBytesBE 16 kv hk]

theorem keyHash_roundtrip_le (h : KeyHash) (hk : h.key < 256 ^ 16) :
    KeyHash.from_cdr_bytes (KeyHash.into_cdr_bytes_le h)
      RepresentationIdentifier.CDR_LE = Except.ok h := by
  obtain ⟨kv⟩ := h
  have hlen : (natToBytesLE 16 kv).length = 16 := natToBytesLE_length 16 kv
  have htake : (natToBytesLE 16 kv).take 16 = natToBytesLE 16 kv :=
    List.take_of_length_le (le_of_eq hlen)
  simp only [KeyHash.into_cdr_bytes_le, KeyHash.from_cdr_bytes]
  rw [if_pos (le_of_eq hlen.symm), htake, bytesToNatLE_natToBytesLE 16 kv hk]

theorem statusInfo_roundtrip (s : StatusInfo) :
    StatusInfo.from_cdr_bytes (StatusInfo.into_cdr_bytes s)
        RepresentationIdentifier.CDR_BE = Except.ok s ∧
      StatusInfo.from_cdr_bytes (StatusInfo.into_cdr_bytes s)
        RepresentationIdentifier.CDR_LE = Except.ok s ∧
      (StatusInfo.into_cdr_bytes s).length = 4 := by
  obtain ⟨e0, e1, e2, d, u, f⟩ := s
  cases d <;> cases u <;> cases f <;> refine ⟨?_, ?_, ?_⟩ <;>
    simp [StatusInfo.into_cdr_bytes, StatusInfo.from_cdr_bytes, StatusInfo.si_bits]

/-- C7: wire-form round-trip of the inline-QoS parameter types.  For every
(representable) KeyHash, decoding its CDR encoding with the matching
representation identifier returns the same KeyHash and the encoding is 16
octets; for every StatusInfo likewise with a 4-octet encoding, for both
byte orders. -/
theorem inline_qos_wire_roundtrip (h : KeyHash) (hk : h.key < 2 ^ 128) (s : StatusInfo) :
    KeyHash.from_cdr_bytes (KeyHash.into_cdr_bytes_be h)
        RepresentationIdentifier.CDR_BE = Except.ok h ∧
      KeyHash.from_cdr_bytes (KeyHash.into_cdr_bytes_le h)
        RepresentationIdentifier.CDR_LE = Except.ok h ∧
      (KeyHash.into_cdr_bytes_be h).length = 16 ∧
      (KeyHash.into_cdr_bytes_le h).length = 16 ∧
      StatusInfo.from_cdr_bytes (StatusInfo.into_cdr_bytes s)
        RepresentationIdentifier.CDR_BE = Except.ok s ∧
      StatusInfo.from_cdr_bytes (StatusInfo.into_cdr_bytes s)
        RepresentationIdentifier.CDR_LE = Except.ok s ∧
      (StatusInfo.into_cdr_bytes s).length = 4 := by
  have h256 : h.key < 256 ^ 16 := by
    have he : (256 : Nat) ^ 16 = 2 ^ 128 := by norm_num
    omega
  obtain ⟨hs1, hs2, hs3⟩ := statusInfo_roundtrip s
  exact ⟨keyHash_roundtrip_be h h256, keyHash_roundtrip_le h h256,
    natToBytesBE_length 16 h.key, natToBytesLE_length 16 h.key, hs1, hs2, hs3⟩

/-- Witness for C7 at KeyHash 1 and a concrete StatusInfo. -/
theorem inline_qos_wire_roundtrip_witness :
    KeyHash.from_cdr_bytes (KeyHash.into_cdr_bytes_be ⟨1⟩)
        RepresentationIdentifier.CDR_BE = Except.ok ⟨1⟩ ∧
      KeyHash.from_cdr_bytes (KeyHash.into_cdr_bytes_le ⟨1⟩)
        RepresentationIdentifier.CDR_LE = Except.ok ⟨1⟩ ∧
      (KeyHash.into_cdr_bytes_be ⟨1⟩).length = 16 ∧
      (KeyHash.into_cdr_bytes_le ⟨1⟩).length = 16 ∧
      StatusInfo.from_cdr_bytes (StatusInfo.into_cdr_bytes ⟨0, 0, 0, true, false, true⟩)
        RepresentationIdentifier.CDR_BE = Except.ok ⟨0, 0, 0, true, false, true⟩ ∧
      StatusInfo.from_cdr_bytes (StatusInfo.into_cdr_bytes ⟨0, 0, 0, true, false, true⟩)
        RepresentationIdentifier.CDR_LE = Except.ok ⟨0, 0, 0, true, false, true⟩ ∧
      (StatusInfo.into_cdr_bytes ⟨0, 0, 0, true, false, true⟩).length = 4 :=
  inline_qos_wire_roundtrip ⟨1⟩ (by norm_num) ⟨0, 0, 0, true, false, true⟩

/-- C6: StatusInfo::change_kind resolves the flag bits with precedence
Disposed over Unregistered over Alive: with Disposed set the result is
NOT_ALIVE_DISPOSED whatever the other bits; otherwise Unregistered set
gives NOT_ALIVE_UNREGISTERED; with neither set (Filtered free) the result
is ALIVE. -/
theorem status_info_change_kind_precedence :
    ∀ (e0 e1 e2 : Nat) (u f : Bool),
      (StatusInfo.mk e0 e1 e2 true u f).change_kind = ChangeKind.NOT_ALIVE_DISPOSED ∧
        (StatusInfo.mk e0 e1 e2 false true f).change_kind =
          ChangeKind.NOT_ALIVE_UNREGISTERED ∧
        (StatusInfo.mk e0 e1 e2 false false f).change_kind = ChangeKind.ALIVE :=
  fun _ _ _ _ _ => ⟨rfl, rfl, rfl⟩

/-- C5: DDSData::new_disposed yields a payload-less sample whose
change_kind comes from the StatusInfo when present (ALIVE when absent) and
whose value_key_hash is the KeyHash value when present (0 when absent). -/
theorem new_disposed_fields :
    ∀ (now : Timestamp) (i : StatusInfo) (kh : KeyHash) (si : Option StatusInfo)
      (okh : Option KeyHash),
      (DDSData.new_disposed now si okh).value = none ∧
        (DDSData.new_disposed now (some i) okh).change_kind = i.change_kind ∧
        (DDSData.new_disposed now none okh).change_kind = ChangeKind.ALIVE ∧
        (DDSData.new_disposed now si (some kh)).value_key_hash = kh.value ∧
        (DDSData.new_disposed now si none).value_key_hash = 0 :=
  fun _ _ _ _ _ => ⟨rfl, rfl, rfl, rfl, rfl⟩

/-- C1 (evaluation of the code at the failing input): for every allocator
state, the cache returned by DomainParticipant_Inner::get_dds_cache is a
different allocation from the a_r_cache handed to DPEventLoop, and an
insertion made through the returned handle is invisible through the event
loop's handle. -/
theorem participant_cache_not_shared_with_event_loop :
    ∀ (n : Nat) (heap : CacheHeap) (e : Nat),
      DomainParticipant_Inner.get_dds_cache (DomainParticipant_Inner.new n).1 ≠
          (DomainParticipant_Inner.new n).1.ev_loop_cache ∧
        cacheRead
            (cacheInsert heap
              (DomainParticipant_Inner.get_dds_cache (DomainParticipant_Inner.new n).1) e)
            (DomainParticipant_Inner.new n).1.ev_loop_cache =
          cacheRead heap (DomainParticipant_Inner.new n).1.ev_loop_cache := by
  intro n heap e
  constructor
  · intro hc
    have h2 : n + 1 = n := congrArg CacheRef.id hc
    omega
  · show (if n = n + 1 then e :: heap n else heap n) = heap n
    rw [if_neg (by omega)]

/-- C2 counterexample: a dangling DomainParticipantWeak makes
create_publisher return OutOfResources, not PreconditionNotMet as the
claim states. -/
theorem create_publisher_dangling_not_precondition :
    DomainParticipantWeak.create_publisher none =
        Except.error DDSError.OutOfResources ∧
      DomainParticipantWeak.create_publisher none ≠
        Except.error DDSError.PreconditionNotMet := by
  refine ⟨rfl, ?_⟩
  intro hc
  exact DDSError.noConfusion (Except.error.inj hc)

/-- C2 (amended): DataReader::new on a vanished participant returns
PreconditionNotMet, while the weak-handle constructors return
OutOfResources (create_publisher, create_subscriber) and LockPoisoned
(create_topic) when the weak pointer fails to upgrade. -/
theorem dangling_participant_error_kinds :
    ∀ (my_id : EntityId) (name type_desc : Nat),
      DataReader.new none my_id = Except.error DDSError.PreconditionNotMet ∧
        DomainParticipantWeak.create_publisher none =
          Except.error DDSError.OutOfResources ∧
        DomainParticipantWeak.create_subscriber none =
          Except.error DDSError.OutOfResources ∧
        DomainParticipantWeak.create_topic none name type_desc =
          Except.error DDSError.LockPoisoned :=
  fun _ _ _ => ⟨rfl, rfl, rfl, rfl⟩

/-- C3 (evaluation of the code at the failing input): DDSData::from_dispose
does set change_kind to NOT_ALIVE_DISPOSED, but for every key it leaves the
payload at None (no CDR-encoded key) and the value_key_hash at 0. -/
theorem from_dispose_omits_key_payload_and_hash :
    ∀ (K : Type) (k : K) (now : Timestamp) (ts : Option Timestamp),
      (DDSData.from_dispose K k now ts).change_kind = ChangeKind.NOT_ALIVE_DISPOSED ∧
        (DDSData.from_dispose K k now ts).value = none ∧
        (DDSData.from_dispose K k now ts).value_key_hash = 0 :=
  fun _ _ _ _ => ⟨rfl, rfl, rfl⟩

theorem findParticipantId_spec (bindable : Nat → Bool) (d : Nat) :
    ∀ fuel st p : Nat, findParticipantId bindable d fuel st = some p →
      st ≤ p ∧ bindable (get_spdp_well_known_unicast_port d p) = true ∧
        ∀ q, st ≤ q → q < p →
          bindable (get_spdp_well_known_unicast_port d q) = false := by
  intro fuel
  induction fuel with
  | zero => intro st p h; simp [findParticipantId] at h
  | succ n ih =>
    intro st p h
    by_cases hb : bindable (get_spdp_well_known_unicast_port d st) = true
    · simp [findParticipantId, hb] at h
      subst h
      exact ⟨le_refl _, hb, fun q hq1 hq2 => absurd hq1 (by omega)⟩
    · simp [findParticipantId, hb] at h
      obtain ⟨h1, h2, h3⟩ := ih (st + 1) p h
      refine ⟨by omega, h2, ?_⟩
      intro q hq1 hq2
      rcases Nat.eq_or_lt_of_le hq1 with heq | hlt
      · rw [← heq]
        exact Bool.eq_false_iff.mpr hb
      · exact h3 q (by omega) hq2

/-- C8 (amended): when the participant-id scan terminates with id `p`, the
SPDP well-known unicast port for `p` was bindable and the SPDP port of
every smaller candidate was found unbindable.  (The user-traffic unicast
port is not consulted by the scan.) -/
theorem participant_id_least_spdp_bindable (bindable : Nat → Bool) (d fuel p : Nat)
    (h : findParticipantId bindable d fuel 0 = some p) :
    bindable (get_spdp_well_known_unicast_port d p) = true ∧
      ((List.range p).all fun q =>
        !bindable (get_spdp_well_known_unicast_port d q)) = true := by
  obtain ⟨-, h2, h3⟩ := findParticipantId_spec bindable d fuel 0 p h
  refine ⟨h2, ?_⟩
  rw [List.all_eq_true]
  intro q hq
  rw [List.mem_range] at hq
  simp [h3 q (Nat.zero_le q) hq]

/-- Witness for C8's amended theorem: with only ports from 7412 on
bindable in domain 0, the scan selects participant id 1, and candidate 0's
SPDP port was unbindable. -/
theorem participant_id_least_spdp_bindable_witness :
    (fun port => decide (7412 ≤ port)) (get_spdp_well_known_unicast_port 0 1) = true ∧
      ((List.range 1).all fun q =>
        !(fun port => decide (7412 ≤ port))
          (get_spdp_well_known_unicast_port 0 q)) = true :=
  participant_id_least_spdp_bindable (fun port => decide (7412 ≤ port)) 0 5 1 (by rfl)

/-- C8 counterexample: with every port except 7411 bindable in domain 0,
the scan selects participant id 0 even though the user-traffic unicast
port of id 0 (= 7411) is unbindable; the smallest id with BOTH unicast
ports bindable would be 1.  This refutes the claim that the chosen id has
both unicast ports bindable. -/
theorem participant_id_ignores_user_port_cex :
    findParticipantId (fun port => decide (port ≠ 7411)) 0 5 0 = some 0 ∧
      (fun port => decide (port ≠ 7411)) (get_user_traffic_unicast_port 0 0) = false ∧
      (fun port => decide (port ≠ 7411)) (get_spdp_well_known_unicast_port 0 1) = true ∧
      (fun port => decide (port ≠ 7411)) (get_user_traffic_unicast_port 0 1) = true :=
  ⟨rfl, rfl, rfl, rfl⟩

theorem matches_conditions_any {D K : Type} (ds : DataSample D K) :
    matches_conditions ReadCondition.any ds = true := rfl

theorem setRead_idem {D K : Type} (ds : DataSample D K) :
    setRead (setRead ds) = setRead ds := rfl

theorem readVec_length {D K : Type} (rc : ReadCondition) (max_samples : Nat) :
    ∀ (vec acc : List (DataSample D K)), acc.length < max_samples →
      (readVec rc max_samples acc vec).1.length ≤ max_samples ∧
        ((readVec rc max_samples acc vec).2.2 = false →
          (readVec rc max_samples acc vec).1.length < max_samples) := by
  intro vec
  induction vec with
  | nil =>
    intro acc h
    exact ⟨le_of_lt h, fun _ => h⟩
  | cons ds rest ih =>
    intro acc h
    simp only [readVec]
    by_cases hm : matches_conditions rc ds = true
    · rw [if_pos hm]
      by_cases hb : max_samples ≤ (acc ++ [setRead ds]).length
      · rw [if_pos hb]
        constructor
        · show (acc ++ [setRead ds]).length ≤ max_samples
          simp only [List.length_append, List.length_cons, List.length_nil]
          omega
        · intro hc
          exact Bool.noConfusion hc
      · rw [if_neg hb]
        have hlt : (acc ++ [setRead ds]).length < max_samples := by
          simp only [List.length_append, List.length_cons, List.length_nil] at hb ⊢
          omega
        exact ih (acc ++ [setRead ds]) hlt
    · rw [if_neg hm]
      by_cases hb : max_samples ≤ acc.length
      · rw [if_pos hb]
        exact ⟨by omega, fun _ => by omega⟩
      · rw [if_neg hb]
        exact ih acc h

theorem takeVec_length {D K : Type} (rc : ReadCondition) (max_samples : Nat) :
    ∀ (vec acc : List (DataSample D K)), acc.length < max_samples →
      (takeVec rc max_samples acc vec).1.length ≤ max_samples ∧
        ((takeVec rc max_samples acc vec).2.2 = false →
          (takeVec rc max_samples acc vec).1.length < max_samples) := by
  intro vec
  induction vec with
  | nil =>
    intro acc h
    exact ⟨le_of_lt h, fun _ => h⟩
  | cons ds rest ih =>
    intro acc h
    simp only [takeVec]
    by_cases hm : matches_conditions rc ds = true
    · rw [if_pos hm]
      by_cases hb : max_samples ≤ (acc ++ [setRead ds]).length
      · rw [if_pos hb]
        constructor
        · show (acc ++ [setRead ds]).length ≤ max_samples
          simp only [List.length_append, List.length_cons, List.length_nil]
          omega
        · intro hc
          exact Bool.noConfusion hc
      · rw [if_neg hb]
        have hlt : (acc ++ [setRead ds]).length < max_samples := by
          simp only [List.length_append, List.length_cons, List.length_nil] at hb ⊢
          omega
        exact ih (acc ++ [setRead ds]) hlt
    · rw [if_neg hm]
      by_cases hb : max_samples ≤ acc.length
      · rw [if_pos hb]
        exact ⟨by omega, fun _ => by omega⟩
      · rw [if_neg hb]
        exact ih acc h

theorem readOuter_length {D K : Type} (rc : ReadCondition) (max_samples : Nat) :
    ∀ (entries : List (K × List (DataSample D K))) (acc : List (DataSample D K)),
      acc.length < max_samples →
      (readOuter rc max_samples acc entries).1.length ≤ max_samples := by
  intro entries
  induction entries with
  | nil => intro acc h; exact le_of_lt h
  | cons e rest ih =>
    intro acc h
    obtain ⟨h1, h2⟩ := readVec_length rc max_samples e.2 acc h
    simp only [readOuter]
    by_cases hb : (readVec rc max_samples acc e.2).2.2 = true
    · rw [if_pos hb]
      exact h1
    · rw [if_neg hb]
      exact ih (readVec rc max_samples acc e.2).1 (h2 (Bool.eq_false_iff.mpr hb))

theorem takeOuter_length {D K : Type} (rc : ReadCondition) (max_samples : Nat) :
    ∀ (entries : List (K × List (DataSample D K))) (acc : List (DataSample D K)),
      acc.length < max_samples →
      (takeOuter rc max_samples acc entries).1.length ≤ max_samples := by
  intro entries
  induction entries with
  | nil => intro acc h; exact le_of_lt h
  | cons e rest ih =>
    intro acc h
    obtain ⟨h1, h2⟩ := takeVec_length rc max_samples e.2 acc h
    simp only [takeOuter]
    by_cases hb : (takeVec rc max_samples acc e.2).2.2 = true
    · rw [if_pos hb]
      exact h1
    · rw [if_neg hb]
      exact ih (takeVec rc max_samples acc e.2).1 (h2 (Bool.eq_false_iff.mpr hb))

/-- C10 (amended): for every max_samples of at least 1, each of read,
take, read_instance and take_instance returns at most max_samples samples
(the length check sits after the push, so max_samples = 0 can still yield
one sample — see the counterexample). -/
theorem results_bounded_by_max_samples {D K : Type} [DecidableEq K] [LinearOrder K]
    (pfx : GuidPrefix) (deser : SerializedPayload → Option D) (keyOf : D → K)
    (hashToKey : Nat → Option K) (c : DataSampleCache D K)
    (changes : List (Nat × CacheChange)) (max_samples : Nat) (rc : ReadCondition)
    (ikey : Option K) (sel : SelectByKey) (hmax : 1 ≤ max_samples) :
    (read_as_obj pfx deser keyOf hashToKey c changes max_samples rc).1.length ≤
        max_samples ∧
      (take_as_obj pfx deser keyOf hashToKey c changes max_samples rc).1.length ≤
        max_samples ∧
      (read_instance pfx deser keyOf hashToKey c changes max_samples rc
          ikey sel).1.length ≤ max_samples ∧
      (take_instance pfx deser keyOf hashToKey c changes max_samples rc
          ikey sel).1.length ≤ max_samples := by
  refine ⟨?_, ?_, ?_, ?_⟩
  · exact readOuter_length rc max_samples
      (get_datasamples_from_cache pfx deser keyOf hashToKey c changes).datasamples []
      (by simpa using hmax)
  · exact takeOuter_length rc max_samples
      (get_datasamples_from_cache pfx deser keyOf hashToKey c changes).datasamples []
      (by simpa using hmax)
  · simp only [read_instance]
    split
    · exact Nat.zero_le _
    · split
      · exact Nat.zero_le _
      · rename_i vec _
        exact (readVec_length rc max_samples vec [] (by simpa using hmax)).1
  · simp only [take_instance]
    split
    · exact Nat.zero_le _
    · split
      · exact Nat.zero_le _
      · rename_i vec _
        exact (takeVec_length rc max_samples vec [] (by simpa using hmax)).1

/-- Witness for C10's amended theorem at a concrete one-sample cache and
max_samples = 3. -/
theorem results_bounded_by_max_samples_witness :
    (read_as_obj (⟨0⟩ : GuidPrefix) (fun _ => (none : Option Nat)) (fun d => d)
          (fun _ => (none : Option Nat))
          ⟨[(5, [⟨⟨SampleState.NotRead, ViewState.New, InstanceState.Alive⟩,
            ⟨⟨1⟩, 1⟩, SampleValue.data 7⟩])]⟩ [] 3 ReadCondition.any).1.length ≤ 3 ∧
      (take_as_obj (⟨0⟩ : GuidPrefix) (fun _ => (none : Option Nat)) (fun d => d)
          (fun _ => (none : Option Nat))
          ⟨[(5, [⟨⟨SampleState.NotRead, ViewState.New, InstanceState.Alive⟩,
            ⟨⟨1⟩, 1⟩, SampleValue.data 7⟩])]⟩ [] 3 ReadCondition.any).1.length ≤ 3 ∧
      (read_instance (⟨0⟩ : GuidPrefix) (fun _ => (none : Option Nat)) (fun d => d)
          (fun _ => (none : Option Nat))
          ⟨[(5, [⟨⟨SampleState.NotRead, ViewState.New, InstanceState.Alive⟩,
            ⟨⟨1⟩, 1⟩, SampleValue.data 7⟩])]⟩ [] 3 ReadCondition.any none
          SelectByKey.This).1.length ≤ 3 ∧
      (take_instance (⟨0⟩ : GuidPrefix) (fun _ => (none : Option Nat)) (fun d => d)
          (fun _ => (none : Option Nat))
          ⟨[(5, [⟨⟨SampleState.NotRead, ViewState.New, InstanceState.Alive⟩,
            ⟨⟨1⟩, 1⟩, SampleValue.data 7⟩])]⟩ [] 3 ReadCondition.any none
          SelectByKey.This).1.length ≤ 3 :=
  results_bounded_by_max_samples (⟨0⟩ : GuidPrefix) (fun _ => (none : Option Nat))
    (fun d => d) (fun _ => (none : Option Nat))
    ⟨[(5, [⟨⟨SampleState.NotRead, ViewState.New, InstanceState.Alive⟩,
      ⟨⟨1⟩, 1⟩, SampleValue.data 7⟩])]⟩ [] 3 ReadCondition.any none SelectByKey.This
    (by decide)

/-- C10 counterexample: with max_samples = 0 and one matching sample in
the cache, read returns one sample — more than max_samples — because the
source checks `result.len() >= max_samples` only after pushing. -/
theorem max_samples_zero_returns_one_cex :
    (read_as_obj (⟨0⟩ : GuidPrefix) (fun _ => (none : Option Nat)) (fun d => d)
        (fun _ => (none : Option Nat))
        ⟨[(5, [⟨⟨SampleState.NotRead, ViewState.New, InstanceState.Alive⟩,
          ⟨⟨1⟩, 1⟩, SampleValue.data 7⟩])]⟩ [] 0 ReadCondition.any).1.length = 1 := rfl

theorem dsNotFrom_setRead {D K : Type} (pfx : GuidPrefix) (ds : DataSample D K) :
    dsNotFrom pfx (setRead ds) = dsNotFrom pfx ds := rfl

theorem readVec_notFrom {D K : Type} (pfx : GuidPrefix) (rc : ReadCondition)
    (max_samples : Nat) :
    ∀ (vec acc : List (DataSample D K)),
      acc.all (dsNotFrom pfx) = true → vec.all (dsNotFrom pfx) = true →
      (readVec rc max_samples acc vec).1.all (dsNotFrom pfx) = true ∧
        (readVec rc max_samples acc vec).2.1.all (dsNotFrom pfx) = true := by
  intro vec
  induction vec with
  | nil => intro acc ha _; exact ⟨ha, rfl⟩
  | cons ds rest ih =>
    intro acc ha hv
    rw [List.all_cons, Bool.and_eq_true] at hv
    obtain ⟨hds, hrest⟩ := hv
    have hacc2 : (acc ++ [setRead ds]).all (dsNotFrom pfx) = true := by
      rw [List.all_append, Bool.and_eq_true]
      exact ⟨ha, by simp [dsNotFrom_setRead, hds]⟩
    simp only [readVec]
    by_cases hm : matches_conditions rc ds = true
    · rw [if_pos hm]
      by_cases hb : max_samples ≤ (acc ++ [setRead ds]).length
      · rw [if_pos hb]
        refine ⟨hacc2, ?_⟩
        show (setRead ds :: rest).all (dsNotFrom pfx) = true
        rw [List.all_cons, Bool.and_eq_true]
        exact ⟨by rw [dsNotFrom_setRead]; exact hds, hrest⟩
      · rw [if_neg hb]
        obtain ⟨h1, h2⟩ := ih (acc ++ [setRead ds]) hacc2 hrest
        refine ⟨h1, ?_⟩
        show (setRead ds ::
          (readVec rc max_samples (acc ++ [setRead ds]) rest).2.1).all (dsNotFrom pfx) = true
        rw [List.all_cons, Bool.and_eq_true]
        exact ⟨by rw [dsNotFrom_setRead]; exact hds, h2⟩
    · rw [if_neg hm]
      by_cases hb : max_samples ≤ acc.length
      · rw [if_pos hb]
        refine ⟨ha, ?_⟩
        show (ds :: rest).all (dsNotFrom pfx) = true
        rw [List.all_cons, Bool.and_eq_true]
        exact ⟨hds, hrest⟩
      · rw [if_neg hb]
        obtain ⟨h1, h2⟩ := ih acc ha hrest
        refine ⟨h1, ?_⟩
        show (ds :: (readVec rc max_samples acc rest).2.1).all (dsNotFrom pfx) = true
        rw [List.all_cons, Bool.and_eq_true]
        exact ⟨hds, h2⟩

theorem takeVec_notFrom {D K : Type} (pfx : GuidPrefix) (rc : ReadCondition)
    (max_samples : Nat) :
    ∀ (vec acc : List (DataSample D K)),
      acc.all (dsNotFrom pfx) = true → vec.all (dsNotFrom pfx) = true →
      (takeVec rc max_samples acc vec).1.all (dsNotFrom pfx) = true ∧
        (takeVec rc max_samples acc vec).2.1.all (dsNotFrom pfx) = true := by
  intro vec
  induction vec with
  | nil => intro acc ha _; exact ⟨ha, rfl⟩
  | cons ds rest ih =>
    intro acc ha hv
    rw [List.all_cons, Bool.and_eq_true] at hv
    obtain ⟨hds, hrest⟩ := hv
    have hacc2 : (acc ++ [setRead ds]).all (dsNotFrom pfx) = true := by
      rw [List.all_append, Bool.and_eq_true]
      exact ⟨ha, by simp [dsNotFrom_setRead, hds]⟩
    simp only [takeVec]
    by_cases hm : matches_conditions rc ds = true
    · rw [if_pos hm]
      by_cases hb : max_samples ≤ (acc ++ [setRead ds]).length
      · rw [if_pos hb]
        exact ⟨hacc2, hrest⟩
      · rw [if_neg hb]
        exact ih (acc ++ [setRead ds]) hacc2 hrest
    · rw [if_neg hm]
      by_cases hb : max_samples ≤ acc.length
      · rw [if_pos hb]
        refine ⟨ha, ?_⟩
        show (ds :: rest).all (dsNotFrom pfx) = true
        rw [List.all_cons, Bool.and_eq_true]
        exact ⟨hds, hrest⟩
      · rw [if_neg hb]
        obtain ⟨h1, h2⟩ := ih acc ha hrest
        refine ⟨h1, ?_⟩
        show (ds :: (takeVec rc max_samples acc rest).2.1).all (dsNotFrom pfx) = true
        rw [List.all_cons, Bool.and_eq_true]
        exact ⟨hds, h2⟩

theorem readOuter_notFrom {D K : Type} (pfx : GuidPrefix) (rc : ReadCondition)
    (max_samples : Nat) :
    ∀ (entries : List (K × List (DataSample D K))) (acc : List (DataSample D K)),
      acc.all (dsNotFrom pfx) = true →
      entries.all (fun e => e.2.all (dsNotFrom pfx)) = true →
      (readOuter rc max_samples acc entries).1.all (dsNotFrom pfx) = true := by
  intro entries
  induction entries with
  | nil => intro acc ha _; exact ha
  | cons e rest ih =>
    intro acc ha hent
    rw [List.all_cons, Bool.and_eq_true] at hent
    obtain ⟨he, hrest⟩ := hent
    obtain ⟨h1, h2⟩ := readVec_notFrom pfx rc max_samples e.2 acc ha he
    simp only [readOuter]
    by_cases hb : (readVec rc max_samples acc e.2).2.2 = true
    · rw [if_pos hb]
      exact h1
    · rw [if_neg hb]
      exact ih (readVec rc max_samples acc e.2).1 h1 hrest

theorem takeOuter_notFrom {D K : Type} (pfx : GuidPrefix) (rc : ReadCondition)
    (max_samples : Nat) :
    ∀ (entries : List (K × List (DataSample D K))) (acc : List (DataSample D K)),
      acc.all (dsNotFrom pfx) = true →
      entries.all (fun e => e.2.all (dsNotFrom pfx)) = true →
      (takeOuter rc max_samples acc entries).1.all (dsNotFrom pfx) = true := by
  intro entries
  induction entries with
  | nil => intro acc ha _; exact ha
  | cons e rest ih =>
    intro acc ha hent
    rw [List.all_cons, Bool.and_eq_true] at hent
    obtain ⟨he, hrest⟩ := hent
    obtain ⟨h1, h2⟩ := takeVec_notFrom pfx rc max_samples e.2 acc ha he
    simp only [takeOuter]
    by_cases hb : (takeVec rc max_samples acc e.2).2.2 = true
    · rw [if_pos hb]
      exact h1
    · rw [if_neg hb]
      exact ih (takeVec rc max_samples acc e.2).1 h1 hrest

theorem addToInstance_notFrom {D K : Type} [DecidableEq K] (pfx : GuidPrefix) (k : K)
    (ds : DataSample D K) (hds : dsNotFrom pfx ds = true) :
    ∀ l : List (K × List (DataSample D K)),
      l.all (fun e => e.2.all (dsNotFrom pfx)) = true →
      (addToInstance k ds l).all (fun e => e.2.all (dsNotFrom pfx)) = true := by
  intro l
  induction l with
  | nil =>
    intro _
    simp [addToInstance, hds]
  | cons e rest ih =>
    intro hl
    rw [List.all_cons, Bool.and_eq_true] at hl
    obtain ⟨he, hrest⟩ := hl
    simp only [addToInstance]
    by_cases hk : e.1 = k
    · rw [if_pos hk]
      rw [List.all_cons, Bool.and_eq_true]
      constructor
      · show (e.2 ++ [ds]).all (dsNotFrom pfx) = true
        rw [List.all_append, Bool.and_eq_true]
        exact ⟨he, by simp [hds]⟩
      · exact hrest
    · rw [if_neg hk]
      rw [List.all_cons, Bool.and_eq_true]
      exact ⟨he, ih hrest⟩

theorem processChange_notFrom {D K : Type} [DecidableEq K] (pfx : GuidPrefix)
    (deser : SerializedPayload → Option D) (keyOf : D → K) (hashToKey : Nat → Option K)
    (c : DataSampleCache D K) (cc : CacheChange)
    (hcc : decide (cc.writer_guid.guidPrefix ≠ pfx) = true)
    (hc : cacheNotFrom pfx c = true) :
    cacheNotFrom pfx (processChange deser keyOf hashToKey c cc) = true := by
  simp only [processChange]
  split
  · split
    · split
      · refine addToInstance_notFrom pfx _ _ ?_ c.datasamples hc
        exact hcc
      · exact hc
    · exact hc
  · split
    · refine addToInstance_notFrom pfx _ _ ?_ c.datasamples hc
      exact hcc
    · exact hc

theorem foldl_processChange_notFrom {D K : Type} [DecidableEq K] (pfx : GuidPrefix)
    (deser : SerializedPayload → Option D) (keyOf : D → K) (hashToKey : Nat → Option K) :
    ∀ (l : List (Nat × CacheChange)) (c : DataSampleCache D K),
      cacheNotFrom pfx c = true →
      (∀ ic ∈ l, decide (ic.2.writer_guid.guidPrefix ≠ pfx) = true) →
      cacheNotFrom pfx
        (l.foldl (fun acc ic => processChange deser keyOf hashToKey acc ic.2) c) = true := by
  intro l
  induction l with
  | nil => intro c hc _; exact hc
  | cons ic rest ih =>
    intro c hc hl
    exact ih (processChange deser keyOf hashToKey c ic.2)
      (processChange_notFrom pfx deser keyOf hashToKey c ic.2
        (hl ic (List.mem_cons_self ic rest)) hc)
      (fun x hx => hl x (List.mem_cons_of_mem ic hx))

theorem get_datasamples_notFrom {D K : Type} [DecidableEq K] (pfx : GuidPrefix)
    (deser : SerializedPayload → Option D) (keyOf : D → K) (hashToKey : Nat → Option K)
    (c : DataSampleCache D K) (changes : List (Nat × CacheChange))
    (hc : cacheNotFrom pfx c = true) :
    cacheNotFrom pfx (get_datasamples_from_cache pfx deser keyOf hashToKey c changes) =
      true := by
  simp only [get_datasamples_from_cache]
  split
  · exact hc
  · refine foldl_processChange_notFrom pfx deser keyOf hashToKey _ c hc ?_
    intro ic hic
    exact (List.mem_filter.mp hic).2

theorem lookupInstance_notFrom {D K : Type} [DecidableEq K] (pfx : GuidPrefix)
    (c : DataSampleCache D K) (k : K) (vec : List (DataSample D K))
    (hc : cacheNotFrom pfx c = true) (hl : lookupInstance c k = some vec) :
    vec.all (dsNotFrom pfx) = true := by
  simp only [lookupInstance] at hl
  rcases Option.map_eq_some'.mp hl with ⟨e, hfind, hsnd⟩
  have hmem : e ∈ c.datasamples := List.mem_of_find?_eq_some hfind
  have he := List.all_eq_true.mp hc e hmem
  rw [← hsnd]
  exact he

/-- C9: a DataReader never delivers its own participant's samples.  When
no sample already in the datasample cache originates from the reader's own
GUID prefix, then — for every batch of fetched cache changes and every
choice of condition, max_samples and instance selection — every sample
returned by read, take, read_instance and take_instance has a writer GUID
prefix different from the reader's own, because
get_datasamples_from_cache filters out every change whose writer prefix
equals the reader's. -/
theorem reader_filters_own_participant_samples {D K : Type} [DecidableEq K]
    [LinearOrder K] (pfx : GuidPrefix) (deser : SerializedPayload → Option D)
    (keyOf : D → K) (hashToKey : Nat → Option K) (c : DataSampleCache D K)
    (changes : List (Nat × CacheChange)) (max_samples : Nat) (rc : ReadCondition)
    (ikey : Option K) (sel : SelectByKey)
    (hclean : cacheNotFrom pfx c = true) :
    (read_as_obj pfx deser keyOf hashToKey c changes max_samples rc).1.all
        (dsNotFrom pfx) = true ∧
      (take_as_obj pfx deser keyOf hashToKey c changes max_samples rc).1.all
        (dsNotFrom pfx) = true ∧
      (read_instance pfx deser keyOf hashToKey c changes max_samples rc
          ikey sel).1.all (dsNotFrom pfx) = true ∧
      (take_instance pfx deser keyOf hashToKey c changes max_samples rc
          ikey sel).1.all (dsNotFrom pfx) = true := by
  have hc2 := get_datasamples_notFrom pfx deser keyOf hashToKey c changes hclean
  refine ⟨?_, ?_, ?_, ?_⟩
  · exact readOuter_notFrom pfx rc max_samples
      (get_datasamples_from_cache pfx deser keyOf hashToKey c changes).datasamples []
      rfl hc2
  · exact takeOuter_notFrom pfx rc max_samples
      (get_datasamples_from_cache pfx deser keyOf hashToKey c changes).datasamples []
      rfl hc2
  · simp only [read_instance]
    split
    · rfl
    · split
      · rfl
      · rename_i vec heq
        exact (readVec_notFrom pfx rc max_samples vec [] rfl
          (lookupInstance_notFrom pfx _ _ vec hc2 heq)).1
  · simp only [take_instance]
    split
    · rfl
    · split
      · rfl
      · rename_i vec heq
        exact (takeVec_notFrom pfx rc max_samples vec [] rfl
          (lookupInstance_notFrom pfx _ _ vec hc2 heq)).1

/-- Witness for C9: an empty datasample cache and one incoming change from
a foreign writer prefix. -/
theorem reader_filters_own_participant_samples_witness :
    (read_as_obj (⟨0⟩ : GuidPrefix) (fun _ => some 7) (fun d => d)
        (fun _ => (none : Option Nat)) (⟨[]⟩ : DataSampleCache Nat Nat)
        [(1, ⟨ChangeKind.ALIVE, ⟨⟨1⟩, 2⟩, 0, 0, some ⟨3, [9]⟩⟩)] 4
        ReadCondition.any).1.all (dsNotFrom ⟨0⟩) = true ∧
      (take_as_obj (⟨0⟩ : GuidPrefix) (fun _ => some 7) (fun d => d)
        (fun _ => (none : Option Nat)) (⟨[]⟩ : DataSampleCache Nat Nat)
        [(1, ⟨ChangeKind.ALIVE, ⟨⟨1⟩, 2⟩, 0, 0, some ⟨3, [9]⟩⟩)] 4
        ReadCondition.any).1.all (dsNotFrom ⟨0⟩) = true ∧
      (read_instance (⟨0⟩ : GuidPrefix) (fun _ => some 7) (fun d => d)
        (fun _ => (none : Option Nat)) (⟨[]⟩ : DataSampleCache Nat Nat)
        [(1, ⟨ChangeKind.ALIVE, ⟨⟨1⟩, 2⟩, 0, 0, some ⟨3, [9]⟩⟩)] 4
        ReadCondition.any none SelectByKey.This).1.all (dsNotFrom ⟨0⟩) = true ∧
      (take_instance (⟨0⟩ : GuidPrefix) (fun _ => some 7) (fun d => d)
        (fun _ => (none : Option Nat)) (⟨[]⟩ : DataSampleCache Nat Nat)
        [(1, ⟨ChangeKind.ALIVE, ⟨⟨1⟩, 2⟩, 0, 0, some ⟨3, [9]⟩⟩)] 4
        ReadCondition.any none SelectByKey.This).1.all (dsNotFrom ⟨0⟩) = true :=
  reader_filters_own_participant_samples (⟨0⟩ : GuidPrefix) (fun _ => some 7)
    (fun d => d) (fun _ => (none : Option Nat)) (⟨[]⟩ : DataSampleCache Nat Nat)
    [(1, ⟨ChangeKind.ALIVE, ⟨⟨1⟩, 2⟩, 0, 0, some ⟨3, [9]⟩⟩)] 4
    ReadCondition.any none SelectByKey.This rfl

theorem readVec_all_matching {D K : Type} (rc : ReadCondition) (max_samples : Nat) :
    ∀ (vec acc : List (DataSample D K)),
      (∀ ds ∈ vec, matches_conditions rc ds = true) →
      acc.length + vec.length ≤ max_samples →
      (readVec rc max_samples acc vec).1 = acc ++ vec.map setRead ∧
        (readVec rc max_samples acc vec).2.1 = vec.map setRead := by
  intro vec
  induction vec with
  | nil =>
    intro acc _ _
    constructor
    · show acc = acc ++ ([] : List (DataSample D K)).map setRead
      simp
    · rfl
  | cons ds rest ih =>
    intro acc hm hlen
    have hmds := hm ds (List.mem_cons_self ds rest)
    have hmrest : ∀ x ∈ rest, matches_conditions rc x = true :=
      fun x hx => hm x (List.mem_cons_of_mem ds hx)
    simp only [readVec]
    rw [if_pos hmds]
    by_cases hb : max_samples ≤ (acc ++ [setRead ds]).length
    · rw [if_pos hb]
      have hrest0 : rest = [] := by
        rw [List.length_cons] at hlen
        simp only [List.length_append, List.length_cons, List.length_nil] at hb
        have h0 : rest.length = 0 := by omega
        exact List.length_eq_zero.mp h0
      subst hrest0
      constructor
      · simp
      · simp
    · rw [if_neg hb]
      have hlen2 : (acc ++ [setRead ds]).length + rest.length ≤ max_samples := by
        simp only [List.length_append, List.length_cons, List.length_nil]
        rw [List.length_cons] at hlen
        omega
      obtain ⟨h1, h2⟩ := ih (acc ++ [setRead ds]) hmrest hlen2
      constructor
      · simp [h1]
      · simp [h2]

theorem takeVec_all_matching {D K : Type} (rc : ReadCondition) (max_samples : Nat) :
    ∀ (vec acc : List (DataSample D K)),
      (∀ ds ∈ vec, matches_conditions rc ds = true) →
      acc.length + vec.length ≤ max_samples →
      (takeVec rc max_samples acc vec).1 = acc ++ vec.map setRead ∧
        (takeVec rc max_samples acc vec).2.1 = [] := by
  intro vec
  induction vec with
  | nil =>
    intro acc _ _
    constructor
    · show acc = acc ++ ([] : List (DataSample D K)).map setRead
      simp
    · rfl
  | cons ds rest ih =>
    intro acc hm hlen
    have hmds := hm ds (List.mem_cons_self ds rest)
    have hmrest : ∀ x ∈ rest, matches_conditions rc x = true :=
      fun x hx => hm x (List.mem_cons_of_mem ds hx)
    simp only [takeVec]
    rw [if_pos hmds]
    by_cases hb : max_samples ≤ (acc ++ [setRead ds]).length
    · rw [if_pos hb]
      have hrest0 : rest = [] := by
        rw [List.length_cons] at hlen
        simp only [List.length_append, List.length_cons, List.length_nil] at hb
        have h0 : rest.length = 0 := by omega
        exact List.length_eq_zero.mp h0
      subst hrest0
      constructor
      · simp
      · rfl
    · rw [if_neg hb]
      have hlen2 : (acc ++ [setRead ds]).length + rest.length ≤ max_samples := by
        simp only [List.length_append, List.length_cons, List.length_nil]
        rw [List.length_cons] at hlen
        omega
      obtain ⟨h1, h2⟩ := ih (acc ++ [setRead ds]) hmrest hlen2
      constructor
      · simp [h1]
      · exact h2

theorem readOuter_single {D K : Type} (rc : ReadCondition) (max_samples : Nat) (k : K)
    (vec acc : List (DataSample D K)) :
    (readOuter rc max_samples acc [(k, vec)]).1 = (readVec rc max_samples acc vec).1 ∧
      (readOuter rc max_samples acc [(k, vec)]).2.1 =
        [(k, (readVec rc max_samples acc vec).2.1)] := by
  simp only [readOuter]
  by_cases hb : (readVec rc max_samples acc vec).2.2 = true
  · rw [if_pos hb]
    exact ⟨rfl, rfl⟩
  · rw [if_neg hb]
    exact ⟨rfl, rfl⟩

theorem takeOuter_single {D K : Type} (rc : ReadCondition) (max_samples : Nat) (k : K)
    (vec acc : List (DataSample D K)) :
    (takeOuter rc max_samples acc [(k, vec)]).1 = (takeVec rc max_samples acc vec).1 ∧
      (takeOuter rc max_samples acc [(k, vec)]).2.1 =
        [(k, (takeVec rc max_samples acc vec).2.1)] := by
  simp only [takeOuter]
  by_cases hb : (takeVec rc max_samples acc vec).2.2 = true
  · rw [if_pos hb]
    exact ⟨rfl, rfl⟩
  · rw [if_neg hb]
    exact ⟨rfl, rfl⟩

theorem read_as_obj_single_all {D K : Type} [DecidableEq K] (pfx : GuidPrefix)
    (deser : SerializedPayload → Option D) (keyOf : D → K) (hashToKey : Nat → Option K)
    (k : K) (vec : List (DataSample D K)) (m : Nat) (hlen : vec.length ≤ m) :
    read_as_obj pfx deser keyOf hashToKey ⟨[(k, vec)]⟩ [] m ReadCondition.any =
      (vec.map setRead, ⟨[(k, vec.map setRead)]⟩) := by
  obtain ⟨hv1, hv2⟩ := readVec_all_matching ReadCondition.any m vec []
    (fun ds _ => matches_conditions_any ds) (by simpa using hlen)
  obtain ⟨ho1, ho2⟩ := readOuter_single ReadCondition.any m k vec []
  show ((readOuter ReadCondition.any m [] [(k, vec)]).1,
      (⟨(readOuter ReadCondition.any m [] [(k, vec)]).2.1⟩ : DataSampleCache D K)) =
    (vec.map setRead, ⟨[(k, vec.map setRead)]⟩)
  rw [ho1, ho2, hv1, hv2]
  simp

theorem take_as_obj_single_all {D K : Type} [DecidableEq K] (pfx : GuidPrefix)
    (deser : SerializedPayload → Option D) (keyOf : D → K) (hashToKey : Nat → Option K)
    (k : K) (vec : List (DataSample D K)) (m : Nat) (hlen : vec.length ≤ m) :
    take_as_obj pfx deser keyOf hashToKey ⟨[(k, vec)]⟩ [] m ReadCondition.any =
      (vec.map setRead, ⟨[(k, [])]⟩) := by
  obtain ⟨hv1, hv2⟩ := takeVec_all_matching ReadCondition.any m vec []
    (fun ds _ => matches_conditions_any ds) (by simpa using hlen)
  obtain ⟨ho1, ho2⟩ := takeOuter_single ReadCondition.any m k vec []
  show ((takeOuter ReadCondition.any m [] [(k, vec)]).1,
      (⟨(takeOuter ReadCondition.any m [] [(k, vec)]).2.1⟩ : DataSampleCache D K)) =
    (vec.map setRead, ⟨[(k, [])]⟩)
  rw [ho1, ho2, hv1, hv2]
  simp

/-- C4: read is repeatable and take consumes.  On a DataReader holding
samples `a` then `b` (one instance, no pending cache changes), with any
max_samples of at least 2 and the any-condition: the first read returns
[a, b] (marked read), a second read returns them again, a take then
returns them and removes them, and an immediately following take returns
the empty vector. -/
theorem read_repeats_take_consumes {D K : Type} [DecidableEq K] (pfx : GuidPrefix)
    (deser : SerializedPayload → Option D) (keyOf : D → K) (hashToKey : Nat → Option K)
    (a b : DataSample D K) (k : K) (m : Nat) (hm : 2 ≤ m) :
    readReadTakeTake pfx deser keyOf hashToKey a b k m =
      ([setRead a, setRead b], [setRead a, setRead b], [setRead a, setRead b],
        ([] : List (DataSample D K))) := by
  have h1 := read_as_obj_single_all pfx deser keyOf hashToKey k [a, b] m
    (by simp; omega)
  have h2 := read_as_obj_single_all pfx deser keyOf hashToKey k [setRead a, setRead b] m
    (by simp; omega)
  have h3 := take_as_obj_single_all pfx deser keyOf hashToKey k [setRead a, setRead b] m
    (by simp; omega)
  have h4 := take_as_obj_single_all pfx deser keyOf hashToKey k
    ([] : List (DataSample D K)) m (by simp)
  simp only [readReadTakeTake]
  rw [h1]
  simp only [List.map_cons, List.map_nil]
  rw [h2]
  simp only [List.map_cons, List.map_nil, setRead_idem]
  rw [h3]
  simp only [List.map_cons, List.map_nil, setRead_idem]
  rw [h4]
  simp [setRead_idem]

/-- Witness for C4 at two concrete samples and max_samples = 2. -/
theorem read_repeats_take_consumes_witness :
    readReadTakeTake (⟨0⟩ : GuidPrefix) (fun _ => (none : Option Nat)) (fun d => d)
        (fun _ => (none : Option Nat))
        (⟨⟨SampleState.NotRead, ViewState.New, InstanceState.Alive⟩, ⟨⟨1⟩, 1⟩,
          SampleValue.data 7⟩ : DataSample Nat Nat)
        ⟨⟨SampleState.NotRead, ViewState.New, InstanceState.Alive⟩, ⟨⟨1⟩, 1⟩,
          SampleValue.data 8⟩ 3 2 =
      ([setRead ⟨⟨SampleState.NotRead, ViewState.New, InstanceState.Alive⟩, ⟨⟨1⟩, 1⟩,
          SampleValue.data 7⟩,
        setRead ⟨⟨SampleState.NotRead, ViewState.New, InstanceState.Alive⟩, ⟨⟨1⟩, 1⟩,
          SampleValue.data 8⟩],
       [setRead ⟨⟨SampleState.NotRead, ViewState.New, InstanceState.Alive⟩, ⟨⟨1⟩, 1⟩,
          SampleValue.data 7⟩,
        setRead ⟨⟨SampleState.NotRead, ViewState.New, InstanceState.Alive⟩, ⟨⟨1⟩, 1⟩,
          SampleValue.data 8⟩],
       [setRead ⟨⟨SampleState.NotRead, ViewState.New, InstanceState.Alive⟩, ⟨⟨1⟩, 1⟩,
          SampleValue.data 7⟩,
        setRead ⟨⟨SampleState.NotRead, ViewState.New, InstanceState.Alive⟩, ⟨⟨1⟩, 1⟩,
          SampleValue.data 8⟩],
       ([] : List (DataSample Nat Nat))) :=
  read_repeats_take_consumes (⟨0⟩ : GuidPrefix) (fun _ => (none : Option Nat))
    (fun d => d) (fun _ => (none : Option Nat))
    ⟨⟨SampleState.NotRead, ViewState.New, InstanceState.Alive⟩, ⟨⟨1⟩, 1⟩,
      SampleValue.data 7⟩
    ⟨⟨SampleState.NotRead, ViewState.New, InstanceState.Alive⟩, ⟨⟨1⟩, 1⟩,
      SampleValue.data 8⟩ 3 2 (by decide)
